import Mathlib

/-!
# Verification of the dcc-decode specification

Shallow embedding of the decode-and-verify pipeline of `dcc-decode`
(a Digital Covid Certificate token decoder) and proofs about it.

Byte strings are modelled as `List Nat` (each element the value of one
byte of the Rust `&[u8]` / `&str` input); machine integers are `Nat`/`Int`
with explicit bounds where the source uses `u8`/`u16`/`i64`.  Fallible
Rust functions returning `Result<T, E>` are modelled as `Except E T`.
-/

/-! ## src/b45.rs — restricted-alphabet (base45) decoder -/

/-- Error type of the base45 decoder, from `src/b45.rs` (`enum Base45Error`). -/
inductive Base45Error where
  | Unimplemented : Base45Error
  | InvalidChar : Nat → Base45Error
  | InvalidTriple : Nat → Base45Error
deriving DecidableEq, Repr

/-- `base45_cval` from `src/b45.rs`: maps one input byte to its value 0–44 in
the 45-symbol alphabet, or fails with `InvalidChar`.  Byte literals:
`'0'` = 48, `'9'` = 57, `'A'` = 65, `'Z'` = 90, `' '` = 32, `'$'` = 36,
`'%'` = 37, `'*'` = 42, `'+'` = 43, `'-'` = 45, `'.'` = 46, `'/'` = 47,
`':'` = 58. -/
def base45_cval (input : Nat) : Except Base45Error Nat :=
  if 48 ≤ input ∧ input ≤ 57 then .ok (input - 48)
  else if 65 ≤ input ∧ input ≤ 90 then .ok (input - 65 + 10)
  else if input = 32 then .ok 36
  else if input = 36 then .ok 37
  else if input = 37 then .ok 38
  else if input = 42 then .ok 39
  else if input = 43 then .ok 40
  else if input = 45 then .ok 41
  else if input = 46 then .ok 42
  else if input = 47 then .ok 43
  else if input = 58 then .ok 44
  else .error (.InvalidChar input)

/-- `base45_cdec` from `src/b45.rs`: decodes one 3-symbol group into the two
little-endian bytes of `c + 45*d + 45*45*e`; `u16::try_from` fails exactly
when the sum exceeds 65535, yielding `InvalidTriple(sum)`. -/
def base45_cdec (c d e : Nat) : Except Base45Error (List Nat) :=
  match base45_cval c with
  | .error err => .error err
  | .ok c =>
    match base45_cval d with
    | .error err => .error err
    | .ok d =>
      match base45_cval e with
      | .error err => .error err
      | .ok e =>
        let sum := c + 45 * d + 45 * 45 * e
        if sum < 65536 then .ok [sum % 256, sum / 256]
        else .error (.InvalidTriple sum)

/-- Outcome of running `base45_decode`: besides returning `Ok` or `Err`,
the function can abort — the debug print at `src/b45.rs:55` runs
`std::str::from_utf8(triple).unwrap()` on each complete 3-byte chunk and
panics when the chunk is not valid UTF-8 on its own, which happens when a
chunk boundary splits a multi-byte character of the input string. -/
inductive B45Outcome where
  | panic : B45Outcome
  | error : Base45Error → B45Outcome
  | ok : List Nat → B45Outcome
deriving DecidableEq, Repr

/-- Validity of a standalone 3-byte slice as UTF-8 (the check performed by
`std::str::from_utf8` on one chunk): three ASCII bytes, a 2-byte sequence
next to an ASCII byte on either side, or a single 3-byte sequence
(excluding overlong encodings and surrogates, per UTF-8). -/
def utf8Chunk3 (a b c : Nat) : Bool :=
  decide ((a ≤ 127 ∧ b ≤ 127 ∧ c ≤ 127) ∨
    (194 ≤ a ∧ a ≤ 223 ∧ 128 ≤ b ∧ b ≤ 191 ∧ c ≤ 127) ∨
    (a ≤ 127 ∧ 194 ≤ b ∧ b ≤ 223 ∧ 128 ≤ c ∧ c ≤ 191) ∨
    (((a = 224 ∧ 160 ≤ b ∧ b ≤ 191) ∨
      (225 ≤ a ∧ a ≤ 236 ∧ 128 ≤ b ∧ b ≤ 191) ∨
      (a = 237 ∧ 128 ≤ b ∧ b ≤ 159) ∨
      (238 ≤ a ∧ a ≤ 239 ∧ 128 ≤ b ∧ b ≤ 191)) ∧ 128 ≤ c ∧ c ≤ 191))

/-- The chunk loop of `base45_decode` from `src/b45.rs`:
`chunks_exact(3)` processes complete 3-byte groups left to right. For each
group, the debug `println!` first runs `from_utf8(triple).unwrap()`, which
panics if the chunk is not standalone-valid UTF-8; then `base45_cdec`
decodes the group, an error aborting the loop. Afterwards a remainder of
exactly 2 bytes is rejected with `Unimplemented`, while a remainder of 0
or 1 bytes falls through to `Ok`. -/
def base45_decode_core : List Nat → B45Outcome
  | c :: d :: e :: rest =>
    if utf8Chunk3 c d e then
      match base45_cdec c d e with
      | .error err => .error err
      | .ok ab =>
        match base45_decode_core rest with
        | .panic => .panic
        | .error err => .error err
        | .ok tail => .ok (ab ++ tail)
    else .panic
  | [_, _] => .error .Unimplemented
  | _ => .ok []

/-- `base45_decode` from `src/b45.rs`, on the byte view `input.as_bytes()`
of its `&str` argument. -/
def base45_decode (input : List Nat) : B45Outcome :=
  base45_decode_core input

/-- Every complete 3-byte chunk of the input is standalone-valid UTF-8
(equivalently, the debug print at `src/b45.rs:55` never panics on this
input); holds in particular for all-ASCII input. -/
def allChunksUtf8 : List Nat → Bool
  | a :: b :: c :: rest => utf8Chunk3 a b c && allChunksUtf8 rest
  | _ => true

/-! ### Helper lemmas about the base45 decoder -/

set_option maxHeartbeats 1000000 in
/-- A successful `base45_cval` value is below 45. -/
theorem base45_cval_lt_45 {x v : Nat} (h : base45_cval x = .ok v) : v < 45 := by
  unfold base45_cval at h
  split_ifs at h
  all_goals injection h with h
  all_goals omega

set_option maxHeartbeats 1000000 in
/-- `base45_cval` either succeeds or fails with `InvalidChar` of its input. -/
theorem base45_cval_fail_form {x : Nat} (h : (base45_cval x).isOk = false) :
    base45_cval x = .error (.InvalidChar x) := by
  unfold base45_cval at *
  split_ifs at h ⊢
  all_goals simp_all [Except.isOk, Except.toBool]

/-- Induction principle following the 3-byte chunking of `base45_decode`. -/
def listTripleRec {motive : List Nat → Sort u}
    (h3 : ∀ c d e rest, motive rest → motive (c :: d :: e :: rest))
    (h2 : ∀ x y, motive [x, y])
    (h1 : ∀ x, motive [x])
    (h0 : motive []) : ∀ l, motive l
  | c :: d :: e :: rest => h3 c d e rest (listTripleRec h3 h2 h1 h0 rest)
  | [x, y] => h2 x y
  | [x] => h1 x
  | [] => h0

/-- One-step unfolding of the chunk loop on a complete leading group. -/
theorem base45_decode_core_cons (c d e : Nat) (rest : List Nat) :
    base45_decode_core (c :: d :: e :: rest) =
      (if utf8Chunk3 c d e then
        match base45_cdec c d e with
        | .error err => .error err
        | .ok ab =>
          match base45_decode_core rest with
          | .panic => .panic
          | .error err => .error err
          | .ok tail => .ok (ab ++ tail)
      else .panic) := rfl

/-- Processing a valid whole-group prefix first, the decoder continues on
the suffix. -/
theorem base45_decode_core_append {p : List Nat} {v : List Nat}
    (hp : p.length % 3 = 0) (hv : base45_decode_core p = .ok v) (q : List Nat) :
    base45_decode_core (p ++ q) =
      (match base45_decode_core q with
       | .panic => .panic
       | .error err => .error err
       | .ok t => .ok (v ++ t)) := by
  induction p using listTripleRec generalizing v with
  | h3 c d e rest ih =>
    rw [base45_decode_core_cons] at hv
    rw [List.cons_append, List.cons_append, List.cons_append, base45_decode_core_cons]
    by_cases hu : utf8Chunk3 c d e
    · rw [if_pos hu] at hv ⊢
      cases hcd : base45_cdec c d e with
      | error err => rw [hcd] at hv; exact B45Outcome.noConfusion hv
      | ok ab =>
        rw [hcd] at hv
        dsimp only at hv ⊢
        cases hrest : base45_decode_core rest with
        | panic => rw [hrest] at hv; exact B45Outcome.noConfusion hv
        | error err => rw [hrest] at hv; exact B45Outcome.noConfusion hv
        | ok tl =>
          rw [hrest] at hv
          dsimp only at hv
          injection hv with hv
          have hr3 : rest.length % 3 = 0 := by
            simp only [List.length_cons] at hp; omega
          rw [ih hr3 hrest]
          cases hq : base45_decode_core q with
          | panic => rfl
          | error err => rfl
          | ok t =>
            dsimp only
            rw [← hv, List.append_assoc]
    · rw [if_neg hu] at hv
      exact B45Outcome.noConfusion hv
  | h2 x y => simp at hp
  | h1 x => simp at hp
  | h0 =>
    have hnil : base45_decode_core [] = .ok [] := rfl
    rw [hnil] at hv
    injection hv with hv
    subst hv
    simp only [List.nil_append]
    cases hq : base45_decode_core q <;> rfl

/-- If one of the three symbols of a group is outside the alphabet,
`base45_cdec` fails with `InvalidChar` of an out-of-alphabet symbol. -/
theorem base45_cdec_badchar {c d e : Nat}
    (hbad : (base45_cval c).isOk = false ∨ (base45_cval d).isOk = false ∨
      (base45_cval e).isOk = false) :
    ∃ b, (base45_cval b).isOk = false ∧
      base45_cdec c d e = .error (.InvalidChar b) := by
  cases hc : base45_cval c with
  | error ec =>
    have hcf : (base45_cval c).isOk = false := by rw [hc]; rfl
    refine ⟨c, hcf, ?_⟩
    unfold base45_cdec
    rw [base45_cval_fail_form hcf]
  | ok vc =>
    cases hd : base45_cval d with
    | error ed =>
      have hdf : (base45_cval d).isOk = false := by rw [hd]; rfl
      refine ⟨d, hdf, ?_⟩
      unfold base45_cdec
      rw [hc, base45_cval_fail_form hdf]
    | ok vd =>
      cases he : base45_cval e with
      | error ee =>
        have hef : (base45_cval e).isOk = false := by rw [he]; rfl
        refine ⟨e, hef, ?_⟩
        unfold base45_cdec
        rw [hc, hd, base45_cval_fail_form hef]
      | ok ve =>
        rw [hc, hd, he] at hbad
        rcases hbad with hb | hb | hb <;> exact absurd hb (by simp [Except.isOk, Except.toBool])

/-! ### Claim theorems for the base45 decoder -/

/-- C2: for a 3-symbol group whose characters are all in the 45-symbol
alphabet with values `vc, vd, ve < 45`, `base45_cdec` computes
`sum = vc + 45*vd + 2025*ve`; when `sum` fits in 16 bits it returns exactly
the two little-endian bytes of `sum`, otherwise it fails with
`InvalidTriple sum`. -/
theorem base45_cdec_correct (c d e vc vd ve : Nat)
    (hc : base45_cval c = .ok vc) (hd : base45_cval d = .ok vd)
    (he : base45_cval e = .ok ve) :
    vc < 45 ∧ vd < 45 ∧ ve < 45 ∧
    (vc + 45 * vd + 2025 * ve < 65536 →
      base45_cdec c d e =
        .ok [(vc + 45 * vd + 2025 * ve) % 256, (vc + 45 * vd + 2025 * ve) / 256]) ∧
    (65536 ≤ vc + 45 * vd + 2025 * ve →
      base45_cdec c d e = .error (.InvalidTriple (vc + 45 * vd + 2025 * ve))) := by
  have h2025 : vc + 45 * vd + 45 * 45 * ve = vc + 45 * vd + 2025 * ve := by norm_num
  refine ⟨base45_cval_lt_45 hc, base45_cval_lt_45 hd, base45_cval_lt_45 he, ?_, ?_⟩
  · intro h
    unfold base45_cdec
    rw [hc, hd, he]
    dsimp only
    rw [h2025, if_pos h]
  · intro h
    unfold base45_cdec
    rw [hc, hd, he]
    dsimp only
    rw [h2025, if_neg (by omega)]

/-- Witness for C2: the group `"111"` (bytes 49) has values (1,1,1) and
decodes to the little-endian bytes of 2071. -/
theorem base45_cdec_correct_witness :
    base45_cdec 49 49 49 =
      .ok [(1 + 45 * 1 + 2025 * 1) % 256, (1 + 45 * 1 + 2025 * 1) / 256] :=
  (base45_cdec_correct 49 49 49 1 1 1 rfl rfl rfl).2.2.2.1 (by norm_num)

/-- C1 (divergence witness): the input `"0000"` has length ≡ 1 (mod 3) and
its single complete group `"000"` is valid, yet `base45_decode` returns
`Ok [0, 0]`, silently dropping the trailing symbol instead of failing. -/
theorem base45_decode_rem1_accepts :
    base45_decode [48, 48, 48, 48] = .ok [0, 0] := rfl

/-- C8 (counterexample): the byte string of `"00ééé"` has length ≡ 2
(mod 3) — 8 bytes, also 5 characters — but `base45_decode` panics at the
debug print on its first chunk `[48, 48, 0xC3]`, which splits the first
`é`: it aborts without returning an error. -/
theorem base45_decode_rem2_panic_cex :
    ([48, 48, 195, 169, 195, 169, 195, 169] : List Nat).length % 3 = 2 ∧
    base45_decode [48, 48, 195, 169, 195, 169, 195, 169] = .panic ∧
    ∀ err, base45_decode [48, 48, 195, 169, 195, 169, 195, 169] ≠ .error err := by
  refine ⟨rfl, rfl, ?_⟩
  intro err h
  rw [show base45_decode [48, 48, 195, 169, 195, 169, 195, 169] = .panic
    from rfl] at h
  exact B45Outcome.noConfusion h

/-- C8 (amended): an input whose byte length is ≡ 2 (mod 3) never decodes
successfully — `base45_decode` either returns an error or panics at the
debug print; when every complete 3-byte chunk is standalone-valid UTF-8
(in particular for all-ASCII input) it returns an error. -/
theorem base45_decode_rem2_never_ok (bs : List Nat) (h : bs.length % 3 = 2) :
    (∀ v, base45_decode bs ≠ .ok v) ∧
    (allChunksUtf8 bs = true → ∃ err, base45_decode bs = .error err) := by
  unfold base45_decode
  induction bs using listTripleRec with
  | h3 c d e rest ih =>
    have hr : rest.length % 3 = 2 := by
      simp only [List.length_cons] at h; omega
    obtain ⟨ih1, ih2⟩ := ih hr
    rw [base45_decode_core_cons]
    by_cases hu : utf8Chunk3 c d e
    · rw [if_pos hu]
      constructor
      · intro v hv
        cases hcd : base45_cdec c d e with
        | error err => rw [hcd] at hv; exact B45Outcome.noConfusion hv
        | ok ab =>
          rw [hcd] at hv
          dsimp only at hv
          cases hrest : base45_decode_core rest with
          | panic => rw [hrest] at hv; exact B45Outcome.noConfusion hv
          | error err => rw [hrest] at hv; exact B45Outcome.noConfusion hv
          | ok tl => exact ih1 tl hrest
      · intro hall
        have hall' : (utf8Chunk3 c d e && allChunksUtf8 rest) = true := hall
        simp only [Bool.and_eq_true] at hall'
        have hrall : allChunksUtf8 rest = true := hall'.2
        cases hcd : base45_cdec c d e with
        | error err => exact ⟨err, rfl⟩
        | ok ab =>
          obtain ⟨err, herr⟩ := ih2 hrall
          rw [herr]
          exact ⟨err, rfl⟩
    · rw [if_neg hu]
      constructor
      · intro v hv
        exact B45Outcome.noConfusion hv
      · intro hall
        have hall' : (utf8Chunk3 c d e && allChunksUtf8 rest) = true := hall
        simp only [Bool.and_eq_true] at hall'
        exact absurd hall'.1 hu
  | h2 x y =>
    exact ⟨fun v hv => B45Outcome.noConfusion hv, fun _ => ⟨.Unimplemented, rfl⟩⟩
  | h1 x => simp at h
  | h0 => simp at h

/-- Witness for C8 (amended): the two valid symbols `"00"` are all-ASCII
and decoding returns an error. -/
theorem base45_decode_rem2_never_ok_witness :
    ∃ err, base45_decode [48, 48] = .error err :=
  (base45_decode_rem2_never_ok [48, 48] rfl).2 rfl

/-- C3 (counterexample): the input `"000\x01"` contains the
out-of-alphabet byte 1 (in its trailing 1-symbol group), yet
`base45_decode` succeeds — refuting the claim that any input containing an
out-of-alphabet character fails with `InvalidCharacter`, including
positions in a trailing partial group. -/
theorem base45_decode_badchar_cex :
    (base45_cval 1).isOk = false ∧ base45_decode [48, 48, 48, 1] = .ok [0, 0] :=
  ⟨rfl, rfl⟩

/-- C3 (amended): if a complete 3-symbol group is standalone-valid UTF-8
(so the debug print at `src/b45.rs:55` does not panic on it), contains an
out-of-alphabet character, and all complete groups before it decode
successfully, then `base45_decode` fails with `InvalidChar` carrying an
out-of-alphabet byte.  (An out-of-alphabet byte only in the trailing
partial group does not cause an `InvalidChar` failure: a 1-symbol remainder
is ignored and a 2-symbol remainder fails with `Unimplemented` regardless;
and a chunk that splits a multi-byte character makes the program panic
instead of returning an error.) -/
theorem base45_decode_badchar_fails (p : List Nat) (c d e : Nat) (rest v : List Nat)
    (hp : p.length % 3 = 0) (hpv : base45_decode_core p = .ok v)
    (hutf : utf8Chunk3 c d e = true)
    (hbad : (base45_cval c).isOk = false ∨ (base45_cval d).isOk = false ∨
      (base45_cval e).isOk = false) :
    ∃ b, (base45_cval b).isOk = false ∧
      base45_decode (p ++ c :: d :: e :: rest) = .error (.InvalidChar b) := by
  obtain ⟨b, hb, hcdec⟩ := base45_cdec_badchar hbad
  refine ⟨b, hb, ?_⟩
  unfold base45_decode
  rw [base45_decode_core_append hp hpv, base45_decode_core_cons, if_pos hutf, hcdec]

/-- Witness for C3 (amended): `"\x01"` followed by two valid symbols forms a
complete all-ASCII bad group, and decoding fails with `InvalidChar 1`. -/
theorem base45_decode_badchar_fails_witness :
    ∃ b, (base45_cval b).isOk = false ∧
      base45_decode [1, 48, 48] = .error (.InvalidChar b) :=
  base45_decode_badchar_fails [] 1 48 48 [] [] rfl rfl (by decide) (Or.inl rfl)

/-! ## src/cwt.rs — CBOR header byte splitter -/

/-- Error type from `src/cwt.rs` (`enum CwtError`). -/
inductive CwtError where
  | Unimplemented : CwtError
deriving DecidableEq, Repr

/-- `cbor_byte` from `src/cwt.rs`: splits a CBOR header byte into its major
type (`input >> 5`) and additional-information (`input & 0b11111`) fields;
it always returns `Ok`. The `u8` input is modelled as a `Nat` below 256. -/
def cbor_byte (input : Nat) : Except CwtError (Nat × Nat) :=
  .ok (input >>> 5, input &&& 31)

/-- C10: `cbor_byte` is total: for every byte `b` it returns
`Ok (b >> 5, b & 0x1F)` with major < 8, info < 32, and
`major * 32 + info` reconstructing `b` exactly. -/
theorem cbor_byte_total (b : Nat) (hb : b < 256) :
    cbor_byte b = .ok (b >>> 5, b &&& 31) ∧
    b >>> 5 < 8 ∧ b &&& 31 < 32 ∧ (b >>> 5) * 32 + (b &&& 31) = b := by
  have hdiv : b >>> 5 = b / 32 := by
    rw [Nat.shiftRight_eq_div_pow]
  have hmod : b &&& 31 = b % 32 := by
    have h := Nat.and_pow_two_sub_one_eq_mod b 5
    norm_num at h
    exact h
  exact ⟨rfl, by rw [hdiv]; omega, by rw [hmod]; omega, by rw [hdiv, hmod]; omega⟩

/-- Witness for C10: splitting the byte 0xA3 gives major 5, info 3. -/
theorem cbor_byte_total_witness :
    cbor_byte 163 = .ok (163 >>> 5, 163 &&& 31) ∧
    163 >>> 5 < 8 ∧ 163 &&& 31 < 32 ∧ (163 >>> 5) * 32 + (163 &&& 31) = 163 :=
  cbor_byte_total 163 (by norm_num)

/-! ## src/dcc/mod.rs — `load_sign1` prefix handling -/

/-- The fixed scheme tag `"HC1:"` checked by `load_sign1`. -/
def hc1Tag : List Char := ['H', 'C', '1', ':']

/-- The trailing-newline trimming `buf.trim_end_matches('\n')` performed by
`load_sign1` in `src/dcc/mod.rs`. -/
def trimEndNewlines (buf : List Char) : List Char :=
  (buf.reverse.dropWhile (fun ch => ch == '\n')).reverse

/-- `load_sign1` from `src/dcc/mod.rs`, with the downstream pipeline
(base45 decode, zlib inflate, COSE parse — all external crates) abstracted
as the continuation `pipeline` applied to the text after the prefix.
`strip_prefix("HC1:")` succeeds exactly when the trimmed text starts with
the 4-character tag, and then yields the remainder. -/
def load_sign1 {α : Type} (pipeline : List Char → Except String α)
    (buf : List Char) : Except String α :=
  let text := trimEndNewlines buf
  if text.take 4 = hc1Tag then pipeline (text.drop 4)
  else .error "Expected a string that starts with 'HC1:'"

/-- C9: `load_sign1` fails for every input that, after removing trailing
newlines, does not begin with `"HC1:"`; when the tag is present, exactly
the remainder after the tag is passed to the downstream decoder. -/
theorem load_sign1_hc1_gate {α : Type} (pipeline : List Char → Except String α)
    (buf : List Char) :
    ((trimEndNewlines buf).take 4 ≠ hc1Tag →
      load_sign1 pipeline buf = .error "Expected a string that starts with 'HC1:'") ∧
    ((trimEndNewlines buf).take 4 = hc1Tag →
      load_sign1 pipeline buf = pipeline ((trimEndNewlines buf).drop 4)) := by
  unfold load_sign1
  constructor
  · intro h
    rw [if_neg h]
  · intro h
    rw [if_pos h]

/-- Witness for C9: `"A"` is rejected; `"HC1:0\n"` passes exactly `"0"` to
the downstream decoder. -/
theorem load_sign1_hc1_gate_witness :
    load_sign1 (fun cs => .ok cs) ['A'] =
      .error "Expected a string that starts with 'HC1:'" ∧
    load_sign1 (fun cs => .ok cs) ['H', 'C', '1', ':', '0', '\n'] = .ok ['0'] :=
  ⟨(load_sign1_hc1_gate (fun cs => .ok cs) ['A']).1 (by decide),
   (load_sign1_hc1_gate (fun cs => .ok cs) ['H', 'C', '1', ':', '0', '\n']).2 (by decide)⟩

/-! ## src/cert.rs — public-key algorithm dispatch -/

namespace Cert

/-- An ASN.1 object identifier, as its arc components. -/
abbrev Oid := List Nat

/-- The OID of the curve prime256v1 (1.2.840.10045.3.1.7), inserted into the
registry by `get_pk_sig_algorithm` with short name `"prime256v1"`. -/
def prime256v1Oid : Oid := [1, 2, 840, 10045, 3, 1, 7]

/-- `enum Prime` from `src/cert.rs`. -/
inductive Prime where
  | Prime256v1 : Prime
deriving DecidableEq, Repr

/-- `enum Algorithm` from `src/cert.rs`. -/
inductive Algorithm where
  | IdEcPublicKey : Prime → Algorithm
deriving DecidableEq, Repr

/-- The BER parameters object of an algorithm identifier; `as_oid` may fail
(modelled as `Except` like the `?` on `prime_ber.as_oid()`). -/
structure BerObject where
  asOid : Except String Oid

/-- The algorithm identifier of a subject-public-key-info: an algorithm OID
and optional BER parameters (`x509_parser`'s `AlgorithmIdentifier`). -/
structure AlgorithmIdentifier where
  algorithm : Oid
  parameters : Option BerObject

/-- The subject-public-key-info fields used by `get_pk_sig_algorithm`. -/
structure SubjectPublicKeyInfo where
  algorithm : AlgorithmIdentifier

/-- The OID registry built at the start of `get_pk_sig_algorithm`:
`OidRegistry::default().with_crypto().with_x509()` (abstracted as the
short-name lookup `base`) with `prime256v1Oid ↦ "prime256v1"` inserted. -/
def registryWithPrime (base : Oid → Option String) : Oid → Option String :=
  fun oid => if oid = prime256v1Oid then some "prime256v1" else base oid

/-- `get_pk_sig_algorithm` from `src/cert.rs`: looks up the key's algorithm
OID in the registry; on short name `"id-ecPublicKey"` it requires the curve
parameter to be present, to be an OID, and to resolve to short name
`"prime256v1"`; every other outcome is an error. -/
def get_pk_sig_algorithm (base : Oid → Option String)
    (sigpki : SubjectPublicKeyInfo) : Except String Algorithm :=
  let registry := registryWithPrime base
  match registry sigpki.algorithm.algorithm with
  | some sn =>
    if sn = "id-ecPublicKey" then
      match sigpki.algorithm.parameters with
      | none => .error "Expected prime parameter for 'id-ecPublicKey'"
      | some prime_ber =>
        match prime_ber.asOid with
        | .error err => .error err
        | .ok oid =>
          match registry oid with
          | some psn =>
            if psn = "prime256v1" then .ok (.IdEcPublicKey .Prime256v1)
            else .error "Unsupported prime parameter for 'id-ecPublicKey'"
          | none => .error "Unknown prime parameter for 'id-ecPublicKey'"
    else .error "Unknown algorithm"
  | none => .error "Unknown algorithm"

/-- C4: `get_pk_sig_algorithm` succeeds exactly when the key's algorithm
OID resolves to `id-ecPublicKey` and its curve parameter is present, is an
OID, and resolves to `prime256v1`; the only successful result is the one
supported algorithm. Every other identifier — non-EC key, unknown OID, EC
key with missing, malformed, unknown or unsupported curve parameter —
yields an error, never a success. -/
theorem get_pk_sig_algorithm_only_p256 (base : Oid → Option String)
    (sigpki : SubjectPublicKeyInfo) (a : Algorithm) :
    get_pk_sig_algorithm base sigpki = .ok a ↔
      (a = .IdEcPublicKey .Prime256v1 ∧
       registryWithPrime base sigpki.algorithm.algorithm = some "id-ecPublicKey" ∧
       ∃ prime_ber oid, sigpki.algorithm.parameters = some prime_ber ∧
         prime_ber.asOid = .ok oid ∧
         registryWithPrime base oid = some "prime256v1") := by
  unfold get_pk_sig_algorithm
  constructor
  · intro h
    dsimp only at h
    cases hreg : registryWithPrime base sigpki.algorithm.algorithm with
    | none => rw [hreg] at h; exact Except.noConfusion h
    | some sn =>
      rw [hreg] at h
      dsimp only at h
      by_cases hsn : sn = "id-ecPublicKey"
      · rw [if_pos hsn] at h
        cases hpar : sigpki.algorithm.parameters with
        | none => rw [hpar] at h; exact Except.noConfusion h
        | some prime_ber =>
          rw [hpar] at h
          dsimp only at h
          cases hoid : prime_ber.asOid with
          | error err => rw [hoid] at h; exact Except.noConfusion h
          | ok oid =>
            rw [hoid] at h
            dsimp only at h
            cases hp : registryWithPrime base oid with
            | none => rw [hp] at h; exact Except.noConfusion h
            | some psn =>
              rw [hp] at h
              dsimp only at h
              by_cases hpsn : psn = "prime256v1"
              · rw [if_pos hpsn] at h
                injection h with h
                subst hpsn hsn
                exact ⟨h.symm, rfl, prime_ber, oid, rfl, hoid, hp⟩
              · rw [if_neg hpsn] at h
                exact Except.noConfusion h
      · rw [if_neg hsn] at h
        exact Except.noConfusion h
  · rintro ⟨ha, hreg, prime_ber, oid, hpar, hoid, hp⟩
    dsimp only
    rw [hreg, hpar]
    dsimp only
    rw [if_pos rfl, hoid]
    dsimp only
    rw [hp]
    dsimp only
    rw [if_pos rfl, ha]

end Cert

/-! ## src/dcc/valuesets.rs — best-effort value-set resolution -/

/-- `struct Value` from `src/dcc/valuesets.rs`: display metadata of one
value-set code. -/
structure VsValue where
  display : String
  lang : String
  active : Bool
  version : String
  system : String
deriving DecidableEq, Repr

/-- `struct ValueSet` from `src/dcc/valuesets.rs`; the `BTreeMap` of codes
is modelled as an association list, the `NaiveDate` as its string form. -/
structure ValueSet where
  id : String
  date : String
  values : List (String × VsValue)
deriving DecidableEq, Repr

/-- `struct ValueSetEntry` from `src/dcc/valuesets.rs`: the raw code plus
optionally resolved metadata (the `&'static Value` reference is modelled by
value). -/
structure ValueSetEntry where
  key : String
  value : Option VsValue
deriving DecidableEq, Repr

/-- `ValueSetVisitor::visit_string` from `src/dcc/valuesets.rs`: starts with
no metadata, fills it in only if a value set is available and contains the
code, and always succeeds. -/
def valueSetVisitString (set : Option ValueSet) (key : String) :
    Except String ValueSetEntry :=
  let value : Option VsValue := none
  let value :=
    match set with
    | some s =>
      match s.values.lookup key with
      | some entry => some entry
      | none => value
    | none => value
  .ok { key := key, value := value }

/-- The `EhnData` of globally loaded value sets (each `Option` because
loading any file may fail), from `src/dcc/valuesets.rs`. -/
structure EhnData where
  vaccine_prophylaxis : Option ValueSet
  disease_agent_targeted : Option ValueSet
  vaccine_mah_manf : Option ValueSet
  vaccine_medicinal_product : Option ValueSet

/-- `deserialize_set_value` from `src/dcc/valuesets.rs`, at the point where
the driving deserializer visits a string `input`: the visitor is constructed
with `EHN_DATA.get().and_then(f)` (no global data, or the selected set
missing, both give `none`) and `visit_str`/`visit_string` is invoked with
the string. -/
def deserialize_set_value (ehn : Option EhnData)
    (f : EhnData → Option ValueSet) (input : String) :
    Except String ValueSetEntry :=
  valueSetVisitString (ehn.bind f) input

/-- C5: decoding a coded field never fails when the input is a string: it
always returns `Ok` with the raw code as `key`, and the resolved metadata is
exactly the best-effort lookup — `none` whenever the value set is
unavailable or the code is absent from it. -/
theorem deserialize_set_value_best_effort (ehn : Option EhnData)
    (f : EhnData → Option ValueSet) (input : String) :
    deserialize_set_value ehn f input =
      .ok { key := input,
            value := (ehn.bind f).bind (fun s => s.values.lookup input) } := by
  unfold deserialize_set_value valueSetVisitString
  cases hset : ehn.bind f with
  | none => rfl
  | some s =>
    dsimp only [Option.bind_some]
    cases hl : s.values.lookup input <;> simp [hl]

/-! ## src/dcc/mod.rs — certificate payload map decoding

The CBOR values driving the serde map visitors are modelled by `Val`; map
keys are the already-deserialized `i64` keys (a non-integer key would fail
key deserialization inside the external serde driver before reaching the
visitor's dispatch). The decoding of the `DigitalCovidCertificate` under
key 1 of the health claim is outside the scope of the claims and is kept
abstract as a parameter `dCert`. -/

/-- A well-formed CBOR-like value as seen by the payload visitors. -/
inductive Val where
  | str : String → Val
  | int : Int → Val
  | map : List (Int × Val) → Val

/-- serde deserialization errors observable in the payload decoder:
`missing_field(name)` from the end-of-map checks, or a value of the wrong
shape for the expected type. -/
inductive DeError where
  | missingField : String → DeError
  | invalidType : String → DeError
deriving DecidableEq, Repr

/-- `map.next_value::<String>()`: only a string value succeeds. -/
def decodeString : Val → Except DeError String
  | .str s => .ok s
  | _ => .error (.invalidType "expected a string")

/-- `map.next_value::<Timestamp>()` via `chrono::serde::ts_seconds`: an
integer is interpreted as seconds since the epoch. -/
def decodeTimestamp : Val → Except DeError Int
  | .int n => .ok n
  | _ => .error (.invalidType "expected seconds since epoch")

/-- `struct HealthClaim` from `src/dcc/mod.rs`, generic over the
`DigitalCovidCertificate` type. -/
structure HealthClaim (γ : Type) where
  cert : γ

/-- `struct CertPayload` from `src/dcc/mod.rs`; timestamps as seconds. -/
structure CertPayload (γ : Type) where
  issuer : String
  expiration_time : Int
  issued_at : Int
  health_claim : HealthClaim γ

/-- The loop of `CertInnerVisitor::visit_map` from `src/dcc/mod.rs`: key 1
fills the certificate slot, any other key is ignored
(`IgnoredAny` succeeds on every well-formed value); at the end the slot is
promoted, failing with `missing_field("cert (1)")` if never filled. -/
def certInnerVisitEntries (dCert : Val → Except DeError γ) :
    List (Int × Val) → Option γ → Except DeError (HealthClaim γ)
  | [], cert =>
    match cert with
    | some c => .ok { cert := c }
    | none => .error (.missingField "cert (1)")
  | (k, v) :: rest, cert =>
    if k = 1 then
      match dCert v with
      | .error err => .error err
      | .ok c => certInnerVisitEntries dCert rest (some c)
    else
      certInnerVisitEntries dCert rest cert

/-- `HealthClaim::deserialize` (`deserialize_map(CertInnerVisitor)`): only a
map value is accepted. -/
def healthClaimDecode (dCert : Val → Except DeError γ) : Val → Except DeError (HealthClaim γ)
  | .map fs => certInnerVisitEntries dCert fs none
  | _ => .error (.invalidType "expected a map")

/-- The loop of `CertVisitor::visit_map` from `src/dcc/mod.rs`: keys 1, 4,
6 and -260 fill the issuer, expiration-time, issued-at and health-claim
slots; any other key is logged and ignored; at the end the four slots are
promoted in order, failing with `missing_field` naming the first empty
one. -/
def certVisitEntries (dCert : Val → Except DeError γ) :
    List (Int × Val) → Option String → Option Int → Option Int →
      Option (HealthClaim γ) → Except DeError (CertPayload γ)
  | [], issuer, ex, ia, hc =>
    match issuer with
    | none => .error (.missingField "issuer (1)")
    | some i =>
      match ex with
      | none => .error (.missingField "expiration_time (4)")
      | some e =>
        match ia with
        | none => .error (.missingField "issued_at (6)")
        | some a =>
          match hc with
          | none => .error (.missingField "health_claim (-260)")
          | some h =>
            .ok { issuer := i, expiration_time := e, issued_at := a, health_claim := h }
  | (k, v) :: rest, issuer, ex, ia, hc =>
    if k = 1 then
      match decodeString v with
      | .error err => .error err
      | .ok s => certVisitEntries dCert rest (some s) ex ia hc
    else if k = 4 then
      match decodeTimestamp v with
      | .error err => .error err
      | .ok t => certVisitEntries dCert rest issuer (some t) ia hc
    else if k = 6 then
      match decodeTimestamp v with
      | .error err => .error err
      | .ok t => certVisitEntries dCert rest issuer ex (some t) hc
    else if k = -260 then
      match healthClaimDecode dCert v with
      | .error err => .error err
      | .ok h => certVisitEntries dCert rest issuer ex ia (some h)
    else
      certVisitEntries dCert rest issuer ex ia hc

/-- `CertVisitor::visit_map` applied to a whole entry sequence: all four
slots start empty. -/
def certPayloadVisitMap (dCert : Val → Except DeError γ)
    (es : List (Int × Val)) : Except DeError (CertPayload γ) :=
  certVisitEntries dCert es none none none none

/-- Whether the value of an entry decodes successfully for its key
(entries with unrecognized keys are always fine: `IgnoredAny`). -/
def entryOk (dCert : Val → Except DeError γ) (p : Int × Val) : Bool :=
  if p.1 = 1 then (decodeString p.2).isOk
  else if p.1 = 4 then (decodeTimestamp p.2).isOk
  else if p.1 = 6 then (decodeTimestamp p.2).isOk
  else if p.1 = -260 then (healthClaimDecode dCert p.2).isOk
  else true

/-- The four required top-level keys with the field names used in the
`missing_field` errors of `CertVisitor::visit_map`. -/
def requiredFields : List (Int × String) :=
  [(1, "issuer (1)"), (4, "expiration_time (4)"), (6, "issued_at (6)"),
   (-260, "health_claim (-260)")]

/-- Whether the accumulator slot for required key `k` is still empty. -/
def noSlot (issuer : Option String) (ex ia : Option Int)
    (hc : Option (HealthClaim γ)) (k : Int) : Bool :=
  if k = 1 then issuer.isNone
  else if k = 4 then ex.isNone
  else if k = 6 then ia.isNone
  else if k = -260 then hc.isNone
  else true

/-- Placeholder for the abstract `DigitalCovidCertificate` decoder in the
closed instances below; the claims under scrutiny never look inside it. -/
def rawCert : Val → Except DeError Val := fun v => .ok v

/-! ### Helper lemmas about the payload map visitors -/

/-- A successful `Except` is `ok` of some value. -/
theorem exceptIsOk_exists {ε α : Type _} {e : Except ε α} (h : e.isOk = true) :
    ∃ a, e = .ok a := by
  cases e with
  | error err => simp [Except.isOk, Except.toBool] at h
  | ok a => exact ⟨a, rfl⟩

/-- One-step unfolding of the `CertVisitor::visit_map` loop. -/
theorem certVisitEntries_cons (dCert : Val → Except DeError γ) (k : Int) (v : Val)
    (rest : List (Int × Val)) (issuer : Option String) (ex ia : Option Int)
    (hc : Option (HealthClaim γ)) :
    certVisitEntries dCert ((k, v) :: rest) issuer ex ia hc =
      (if k = 1 then
        match decodeString v with
        | .error err => .error err
        | .ok s => certVisitEntries dCert rest (some s) ex ia hc
      else if k = 4 then
        match decodeTimestamp v with
        | .error err => .error err
        | .ok t => certVisitEntries dCert rest issuer (some t) ia hc
      else if k = 6 then
        match decodeTimestamp v with
        | .error err => .error err
        | .ok t => certVisitEntries dCert rest issuer ex (some t) hc
      else if k = -260 then
        match healthClaimDecode dCert v with
        | .error err => .error err
        | .ok h => certVisitEntries dCert rest issuer ex ia (some h)
      else
        certVisitEntries dCert rest issuer ex ia hc) := rfl

/-- The keys named by `requiredFields` are exactly 1, 4, 6 and -260. -/
theorem requiredFields_keys {k0 : Int} {name : String}
    (hmem : (k0, name) ∈ requiredFields) :
    k0 = 1 ∨ k0 = 4 ∨ k0 = 6 ∨ k0 = -260 := by
  simp only [requiredFields, List.mem_cons, List.not_mem_nil, or_false,
    Prod.mk.injEq] at hmem
  rcases hmem with ⟨rfl, -⟩ | ⟨rfl, -⟩ | ⟨rfl, -⟩ | ⟨rfl, -⟩
  · exact Or.inl rfl
  · exact Or.inr (Or.inl rfl)
  · exact Or.inr (Or.inr (Or.inl rfl))
  · exact Or.inr (Or.inr (Or.inr rfl))

/-- If some required key `k` has no entry in the remaining map and its slot
is still empty, the visitor loop ends in a `missing_field` error naming a
required field whose key is absent and whose slot is empty. -/
theorem certVisitEntries_missing_aux (dCert : Val → Except DeError γ)
    (es : List (Int × Val)) :
    ∀ (issuer : Option String) (ex ia : Option Int) (hc : Option (HealthClaim γ))
      (k : Int),
    (∀ p ∈ es, entryOk dCert p = true) →
    (k = 1 ∨ k = 4 ∨ k = 6 ∨ k = -260) →
    (∀ p ∈ es, p.1 ≠ k) →
    noSlot issuer ex ia hc k = true →
    ∃ k0 name, (k0, name) ∈ requiredFields ∧
      certVisitEntries dCert es issuer ex ia hc = .error (.missingField name) ∧
      (∀ p ∈ es, p.1 ≠ k0) ∧ noSlot issuer ex ia hc k0 = true := by
  induction es with
  | nil =>
    intro issuer ex ia hc k hok hk habs hnone
    cases issuer with
    | none => exact ⟨1, "issuer (1)", by decide, rfl, by simp, rfl⟩
    | some i =>
      cases ex with
      | none => exact ⟨4, "expiration_time (4)", by decide, rfl, by simp, rfl⟩
      | some e =>
        cases ia with
        | none => exact ⟨6, "issued_at (6)", by decide, rfl, by simp, rfl⟩
        | some a =>
          cases hc with
          | none => exact ⟨-260, "health_claim (-260)", by decide, rfl, by simp, by simp [noSlot]⟩
          | some h2 => rcases hk with rfl | rfl | rfl | rfl <;> simp [noSlot] at hnone
  | cons p rest ih =>
    intro issuer ex ia hc k hok hk habs hnone
    obtain ⟨k1, v⟩ := p
    have hokh := hok _ (List.mem_cons_self _ _)
    have hokr : ∀ p ∈ rest, entryOk dCert p = true :=
      fun p hp => hok p (List.mem_cons_of_mem _ hp)
    have habsr : ∀ p ∈ rest, p.1 ≠ k :=
      fun p hp => habs p (List.mem_cons_of_mem _ hp)
    have hne : k1 ≠ k := habs (k1, v) (List.mem_cons_self _ _)
    rw [certVisitEntries_cons]
    by_cases h1 : k1 = 1
    · subst h1
      rw [if_pos rfl]
      have hdec : (decodeString v).isOk = true := by simpa [entryOk] using hokh
      obtain ⟨s, hs⟩ := exceptIsOk_exists hdec
      rw [hs]
      have hnone' : noSlot (some s) ex ia hc k = true := by
        rcases hk with rfl | rfl | rfl | rfl
        · exact absurd rfl hne
        all_goals simpa [noSlot] using hnone
      obtain ⟨k0, name, hmem, herr, habs0, hnone0⟩ :=
        ih (some s) ex ia hc k hokr hk habsr hnone'
      have hk0ne : k0 ≠ 1 := by
        intro hq; rw [hq] at hnone0; simp [noSlot] at hnone0
      refine ⟨k0, name, hmem, herr, ?_, ?_⟩
      · intro p hp
        rcases List.mem_cons.mp hp with rfl | hp'
        · exact fun hq => hk0ne hq.symm
        · exact habs0 p hp'
      · rcases requiredFields_keys hmem with rfl | rfl | rfl | rfl
        · exact absurd rfl hk0ne
        all_goals simpa [noSlot] using hnone0
    · by_cases h4 : k1 = 4
      · subst h4
        rw [if_neg h1, if_pos rfl]
        have hdec : (decodeTimestamp v).isOk = true := by simpa [entryOk] using hokh
        obtain ⟨t, ht⟩ := exceptIsOk_exists hdec
        rw [ht]
        have hnone' : noSlot issuer (some t) ia hc k = true := by
          rcases hk with rfl | rfl | rfl | rfl
          · simpa [noSlot] using hnone
          · exact absurd rfl hne
          all_goals simpa [noSlot] using hnone
        obtain ⟨k0, name, hmem, herr, habs0, hnone0⟩ :=
          ih issuer (some t) ia hc k hokr hk habsr hnone'
        have hk0ne : k0 ≠ 4 := by
          intro hq; rw [hq] at hnone0; simp [noSlot] at hnone0
        refine ⟨k0, name, hmem, herr, ?_, ?_⟩
        · intro p hp
          rcases List.mem_cons.mp hp with rfl | hp'
          · exact fun hq => hk0ne hq.symm
          · exact habs0 p hp'
        · rcases requiredFields_keys hmem with rfl | rfl | rfl | rfl
          · simpa [noSlot] using hnone0
          · exact absurd rfl hk0ne
          all_goals simpa [noSlot] using hnone0
      · by_cases h6 : k1 = 6
        · subst h6
          rw [if_neg h1, if_neg h4, if_pos rfl]
          have hdec : (decodeTimestamp v).isOk = true := by simpa [entryOk] using hokh
          obtain ⟨t, ht⟩ := exceptIsOk_exists hdec
          rw [ht]
          have hnone' : noSlot issuer ex (some t) hc k = true := by
            rcases hk with rfl | rfl | rfl | rfl
            · simpa [noSlot] using hnone
            · simpa [noSlot] using hnone
            · exact absurd rfl hne
            · simpa [noSlot] using hnone
          obtain ⟨k0, name, hmem, herr, habs0, hnone0⟩ :=
            ih issuer ex (some t) hc k hokr hk habsr hnone'
          have hk0ne : k0 ≠ 6 := by
            intro hq; rw [hq] at hnone0; simp [noSlot] at hnone0
          refine ⟨k0, name, hmem, herr, ?_, ?_⟩
          · intro p hp
            rcases List.mem_cons.mp hp with rfl | hp'
            · exact fun hq => hk0ne hq.symm
            · exact habs0 p hp'
          · rcases requiredFields_keys hmem with rfl | rfl | rfl | rfl
            · simpa [noSlot] using hnone0
            · simpa [noSlot] using hnone0
            · exact absurd rfl hk0ne
            · simpa [noSlot] using hnone0
        · by_cases h260 : k1 = -260
          · subst h260
            rw [if_neg h1, if_neg h4, if_neg h6, if_pos rfl]
            have hdec : (healthClaimDecode dCert v).isOk = true := by
              simpa [entryOk] using hokh
            obtain ⟨hcv, hhc⟩ := exceptIsOk_exists hdec
            rw [hhc]
            have hnone' : noSlot issuer ex ia (some hcv) k = true := by
              rcases hk with rfl | rfl | rfl | rfl
              · simpa [noSlot] using hnone
              · simpa [noSlot] using hnone
              · simpa [noSlot] using hnone
              · exact absurd rfl hne
            obtain ⟨k0, name, hmem, herr, habs0, hnone0⟩ :=
              ih issuer ex ia (some hcv) k hokr hk habsr hnone'
            have hk0ne : k0 ≠ -260 := by
              intro hq; rw [hq] at hnone0; simp [noSlot] at hnone0
            refine ⟨k0, name, hmem, herr, ?_, ?_⟩
            · intro p hp
              rcases List.mem_cons.mp hp with rfl | hp'
              · exact fun hq => hk0ne hq.symm
              · exact habs0 p hp'
            · rcases requiredFields_keys hmem with rfl | rfl | rfl | rfl
              · simpa [noSlot] using hnone0
              · simpa [noSlot] using hnone0
              · simpa [noSlot] using hnone0
              · exact absurd rfl hk0ne
          · rw [if_neg h1, if_neg h4, if_neg h6, if_neg h260]
            obtain ⟨k0, name, hmem, herr, habs0, hnone0⟩ :=
              ih issuer ex ia hc k hokr hk habsr hnone
            refine ⟨k0, name, hmem, herr, ?_, hnone0⟩
            intro p hp
            rcases List.mem_cons.mp hp with rfl | hp'
            · rcases requiredFields_keys hmem with rfl | rfl | rfl | rfl
              · exact h1
              · exact h4
              · exact h6
              · exact h260
            · exact habs0 p hp'

/-- A presence witness for key `a` survives dropping a head entry with a
different key. -/
theorem presence_tail {a k1 : Int} {v : Val} {rest : List (Int × Val)}
    (hne : k1 ≠ a) (h : ∃ w, ((a : Int), w) ∈ (k1, v) :: rest) :
    ∃ w, ((a : Int), w) ∈ rest := by
  obtain ⟨w, hw⟩ := h
  rcases List.mem_cons.mp hw with heq | hw'
  · exact absurd (congrArg Prod.fst heq) (Ne.symm hne)
  · exact ⟨w, hw'⟩

/-- If every entry's value decodes and every required key is present in the
remaining map or already filled, the visitor loop succeeds. -/
theorem certVisitEntries_ok_aux (dCert : Val → Except DeError γ)
    (es : List (Int × Val)) :
    ∀ (issuer : Option String) (ex ia : Option Int) (hc : Option (HealthClaim γ)),
    (∀ p ∈ es, entryOk dCert p = true) →
    (issuer.isSome = true ∨ ∃ w, ((1 : Int), w) ∈ es) →
    (ex.isSome = true ∨ ∃ w, ((4 : Int), w) ∈ es) →
    (ia.isSome = true ∨ ∃ w, ((6 : Int), w) ∈ es) →
    (hc.isSome = true ∨ ∃ w, ((-260 : Int), w) ∈ es) →
    ∃ pl, certVisitEntries dCert es issuer ex ia hc = .ok pl := by
  induction es with
  | nil =>
    intro issuer ex ia hc _ h1 h4 h6 h260
    rcases h1 with h1 | ⟨w, hw⟩; swap; · simp at hw
    rcases h4 with h4 | ⟨w, hw⟩; swap; · simp at hw
    rcases h6 with h6 | ⟨w, hw⟩; swap; · simp at hw
    rcases h260 with h260 | ⟨w, hw⟩; swap; · simp at hw
    rw [Option.isSome_iff_exists] at h1 h4 h6 h260
    obtain ⟨i, rfl⟩ := h1
    obtain ⟨e, rfl⟩ := h4
    obtain ⟨a, rfl⟩ := h6
    obtain ⟨h, rfl⟩ := h260
    exact ⟨_, rfl⟩
  | cons p rest ih =>
    intro issuer ex ia hc hok h1 h4 h6 h260
    obtain ⟨k1, v⟩ := p
    have hokh := hok _ (List.mem_cons_self _ _)
    have hokr : ∀ p ∈ rest, entryOk dCert p = true :=
      fun p hp => hok p (List.mem_cons_of_mem _ hp)
    rw [certVisitEntries_cons]
    by_cases hk1 : k1 = 1
    · subst hk1
      rw [if_pos rfl]
      have hdec : (decodeString v).isOk = true := by simpa [entryOk] using hokh
      obtain ⟨s, hs⟩ := exceptIsOk_exists hdec
      rw [hs]
      exact ih (some s) ex ia hc hokr (Or.inl rfl)
        (h4.imp_right (presence_tail (by decide)))
        (h6.imp_right (presence_tail (by decide)))
        (h260.imp_right (presence_tail (by decide)))
    · by_cases hk4 : k1 = 4
      · subst hk4
        rw [if_neg hk1, if_pos rfl]
        have hdec : (decodeTimestamp v).isOk = true := by simpa [entryOk] using hokh
        obtain ⟨t, ht⟩ := exceptIsOk_exists hdec
        rw [ht]
        exact ih issuer (some t) ia hc hokr
          (h1.imp_right (presence_tail (by decide))) (Or.inl rfl)
          (h6.imp_right (presence_tail (by decide)))
          (h260.imp_right (presence_tail (by decide)))
      · by_cases hk6 : k1 = 6
        · subst hk6
          rw [if_neg hk1, if_neg hk4, if_pos rfl]
          have hdec : (decodeTimestamp v).isOk = true := by simpa [entryOk] using hokh
          obtain ⟨t, ht⟩ := exceptIsOk_exists hdec
          rw [ht]
          exact ih issuer ex (some t) hc hokr
            (h1.imp_right (presence_tail (by decide)))
            (h4.imp_right (presence_tail (by decide))) (Or.inl rfl)
            (h260.imp_right (presence_tail (by decide)))
        · by_cases hk260 : k1 = -260
          · subst hk260
            rw [if_neg hk1, if_neg hk4, if_neg hk6, if_pos rfl]
            have hdec : (healthClaimDecode dCert v).isOk = true := by
              simpa [entryOk] using hokh
            obtain ⟨hcv, hhc⟩ := exceptIsOk_exists hdec
            rw [hhc]
            exact ih issuer ex ia (some hcv) hokr
              (h1.imp_right (presence_tail (by decide)))
              (h4.imp_right (presence_tail (by decide)))
              (h6.imp_right (presence_tail (by decide))) (Or.inl rfl)
          · rw [if_neg hk1, if_neg hk4, if_neg hk6, if_neg hk260]
            exact ih issuer ex ia hc hokr
              (h1.imp_right (presence_tail hk1))
              (h4.imp_right (presence_tail hk4))
              (h6.imp_right (presence_tail hk6))
              (h260.imp_right (presence_tail hk260))

/-- Entries with unrecognized keys do not influence the visitor loop:
filtering them out gives the same result. -/
theorem certVisitEntries_filter_eq (dCert : Val → Except DeError γ)
    (es : List (Int × Val)) :
    ∀ (issuer : Option String) (ex ia : Option Int) (hc : Option (HealthClaim γ)),
    certVisitEntries dCert es issuer ex ia hc =
      certVisitEntries dCert
        (es.filter fun p => p.1 == 1 || p.1 == 4 || p.1 == 6 || p.1 == -260)
        issuer ex ia hc := by
  induction es with
  | nil => intro issuer ex ia hc; rfl
  | cons p rest ih =>
    intro issuer ex ia hc
    obtain ⟨k1, v⟩ := p
    by_cases hk1 : k1 = 1
    · subst hk1
      rw [List.filter_cons_of_pos (by simp), certVisitEntries_cons,
        certVisitEntries_cons, if_pos rfl, if_pos rfl]
      cases decodeString v with
      | error err => rfl
      | ok s => exact ih (some s) ex ia hc
    · by_cases hk4 : k1 = 4
      · subst hk4
        rw [List.filter_cons_of_pos (by simp), certVisitEntries_cons,
          certVisitEntries_cons, if_neg hk1, if_neg hk1, if_pos rfl, if_pos rfl]
        cases decodeTimestamp v with
        | error err => rfl
        | ok t => exact ih issuer (some t) ia hc
      · by_cases hk6 : k1 = 6
        · subst hk6
          rw [List.filter_cons_of_pos (by simp), certVisitEntries_cons,
            certVisitEntries_cons, if_neg hk1, if_neg hk1, if_neg hk4, if_neg hk4,
            if_pos rfl, if_pos rfl]
          cases decodeTimestamp v with
          | error err => rfl
          | ok t => exact ih issuer ex (some t) hc
        · by_cases hk260 : k1 = -260
          · subst hk260
            rw [List.filter_cons_of_pos (by simp), certVisitEntries_cons,
              certVisitEntries_cons, if_neg hk1, if_neg hk1, if_neg hk4, if_neg hk4,
              if_neg hk6, if_neg hk6, if_pos rfl, if_pos rfl]
            cases healthClaimDecode dCert v with
            | error err => rfl
            | ok h => exact ih issuer ex ia (some h)
          · rw [List.filter_cons_of_neg (by simp [hk1, hk4, hk6, hk260]),
              certVisitEntries_cons, if_neg hk1, if_neg hk4, if_neg hk6, if_neg hk260]
            exact ih issuer ex ia hc

/-- One-step unfolding of the `CertInnerVisitor::visit_map` loop. -/
theorem certInnerVisitEntries_cons (dCert : Val → Except DeError γ) (k : Int)
    (v : Val) (rest : List (Int × Val)) (cert : Option γ) :
    certInnerVisitEntries dCert ((k, v) :: rest) cert =
      (if k = 1 then
        match dCert v with
        | .error err => .error err
        | .ok c => certInnerVisitEntries dCert rest (some c)
      else
        certInnerVisitEntries dCert rest cert) := rfl

/-- Entries with unrecognized keys do not influence the inner
(health-claim) visitor loop either. -/
theorem certInnerVisitEntries_filter_eq (dCert : Val → Except DeError γ)
    (fs : List (Int × Val)) :
    ∀ cert : Option γ,
    certInnerVisitEntries dCert fs cert =
      certInnerVisitEntries dCert (fs.filter fun p => p.1 == 1) cert := by
  induction fs with
  | nil => intro cert; rfl
  | cons p rest ih =>
    intro cert
    obtain ⟨k1, v⟩ := p
    by_cases hk1 : k1 = 1
    · subst hk1
      rw [List.filter_cons_of_pos (by simp), certInnerVisitEntries_cons,
        certInnerVisitEntries_cons, if_pos rfl, if_pos rfl]
      cases dCert v with
      | error err => rfl
      | ok c => exact ih (some c)
    · rw [List.filter_cons_of_neg (by simp [hk1]), certInnerVisitEntries_cons,
        if_neg hk1]
      exact ih cert

/-! ### Claim theorems for the payload map decoder -/

/-- C6 (counterexample): the payload map `{1: 5}` is missing required keys
4, 6 and -260, yet decoding fails with an invalid-type error for the
malformed issuer value, not with a missing-field error — refuting the
claim that decoding fails with a missing-field error whenever a required
key is absent. -/
theorem certPayload_missing_not_missingField_cex :
    (∀ p ∈ ([((1 : Int), Val.int 5)] : List (Int × Val)), p.1 ≠ (4 : Int)) ∧
    certPayloadVisitMap rawCert [((1 : Int), Val.int 5)] =
      .error (.invalidType "expected a string") ∧
    ∀ name, certPayloadVisitMap rawCert [((1 : Int), Val.int 5)] ≠
      .error (.missingField name) := by
  refine ⟨by decide, rfl, ?_⟩
  intro name h
  rw [show certPayloadVisitMap rawCert [((1 : Int), Val.int 5)] =
      .error (.invalidType "expected a string") from rfl] at h
  injection h with h
  exact DeError.noConfusion h

/-- C6 (amended): whenever one of the four required keys — issuer (1),
expiration time (4), issued-at time (6), health claim (-260) — is absent
from the payload map and every present entry's value decodes successfully,
decoding fails with a missing-field error naming a required field that is
indeed absent from the map. -/
theorem certPayload_missing_field {γ : Type} (dCert : Val → Except DeError γ)
    (es : List (Int × Val)) (k : Int)
    (hok : ∀ p ∈ es, entryOk dCert p = true)
    (hk : k = 1 ∨ k = 4 ∨ k = 6 ∨ k = -260)
    (habs : ∀ p ∈ es, p.1 ≠ k) :
    ∃ k0 name, (k0, name) ∈ requiredFields ∧
      certPayloadVisitMap dCert es = .error (.missingField name) ∧
      ∀ p ∈ es, p.1 ≠ k0 := by
  have hnone : noSlot (γ := γ) none none none none k = true := by
    rcases hk with rfl | rfl | rfl | rfl
    · rfl
    · rfl
    · rfl
    · simp [noSlot]
  obtain ⟨k0, name, hmem, herr, habs0, -⟩ :=
    certVisitEntries_missing_aux dCert es none none none none k hok hk habs hnone
  exact ⟨k0, name, hmem, herr, habs0⟩

/-- Witness for C6 (amended): a payload with issuer, expiration and
issued-at but no health claim fails with a missing-field error for an
absent required field. -/
theorem certPayload_missing_field_witness :
    ∃ k0 name, (k0, name) ∈ requiredFields ∧
      certPayloadVisitMap rawCert
        [((1 : Int), Val.str "X"), ((4 : Int), Val.int 1700000000),
         ((6 : Int), Val.int 1690000000)] = .error (.missingField name) ∧
      ∀ p ∈ ([((1 : Int), Val.str "X"), ((4 : Int), Val.int 1700000000),
         ((6 : Int), Val.int 1690000000)] : List (Int × Val)), p.1 ≠ k0 :=
  certPayload_missing_field rawCert _ (-260) (by decide)
    (Or.inr (Or.inr (Or.inr rfl))) (by decide)

/-- Example payload map for the C7 witness: all four required keys with
well-shaped values plus the unrecognized key 99. -/
def c7ExampleEntries : List (Int × Val) :=
  [((1 : Int), Val.str "X"), ((4 : Int), Val.int 1700000000),
   ((6 : Int), Val.int 1690000000),
   ((-260 : Int), Val.map [((1 : Int), Val.int 0)]),
   ((99 : Int), Val.str "ignored")]

/-- Example health-claim map for the C7 witness: the certificate under
key 1 plus the unrecognized key 7. -/
def c7ExampleInner : List (Int × Val) :=
  [((1 : Int), Val.int 0), ((7 : Int), Val.str "ignored")]

/-- C7: a payload map with all four required keys carrying well-shaped
values decodes successfully no matter how many unrecognized keys are
present, and produces the same result as the map with the unrecognized
keys removed; the same holds recursively for the health-claim inner map,
whose only recognized key is 1. -/
theorem certPayload_ignores_unknown_keys {γ : Type} (dCert : Val → Except DeError γ)
    (es fs : List (Int × Val))
    (hok : ∀ p ∈ es, entryOk dCert p = true)
    (h1 : ∃ w, ((1 : Int), w) ∈ es) (h4 : ∃ w, ((4 : Int), w) ∈ es)
    (h6 : ∃ w, ((6 : Int), w) ∈ es) (h260 : ∃ w, ((-260 : Int), w) ∈ es) :
    (∃ pl, certPayloadVisitMap dCert es = .ok pl) ∧
    certPayloadVisitMap dCert es =
      certPayloadVisitMap dCert
        (es.filter fun p => p.1 == 1 || p.1 == 4 || p.1 == 6 || p.1 == -260) ∧
    certInnerVisitEntries dCert fs none =
      certInnerVisitEntries dCert (fs.filter fun p => p.1 == 1) none :=
  ⟨certVisitEntries_ok_aux dCert es none none none none hok (Or.inr h1)
      (Or.inr h4) (Or.inr h6) (Or.inr h260),
   certVisitEntries_filter_eq dCert es none none none none,
   certInnerVisitEntries_filter_eq dCert fs none⟩

/-- Witness for C7: the example maps with unknown keys 99 and 7 decode
successfully and agree with their filtered forms. -/
theorem certPayload_ignores_unknown_keys_witness :
    (∃ pl, certPayloadVisitMap rawCert c7ExampleEntries = .ok pl) ∧
    certPayloadVisitMap rawCert c7ExampleEntries =
      certPayloadVisitMap rawCert
        (c7ExampleEntries.filter
          fun p => p.1 == 1 || p.1 == 4 || p.1 == 6 || p.1 == -260) ∧
    certInnerVisitEntries rawCert c7ExampleInner none =
      certInnerVisitEntries rawCert (c7ExampleInner.filter fun p => p.1 == 1) none :=
  certPayload_ignores_unknown_keys rawCert c7ExampleEntries c7ExampleInner
    (by decide)
    ⟨Val.str "X", List.Mem.head _⟩
    ⟨Val.int 1700000000, List.Mem.tail _ (List.Mem.head _)⟩
    ⟨Val.int 1690000000, List.Mem.tail _ (List.Mem.tail _ (List.Mem.head _))⟩
    ⟨Val.map [((1 : Int), Val.int 0)],
      List.Mem.tail _ (List.Mem.tail _ (List.Mem.tail _ (List.Mem.head _)))⟩
